import Mathlib

/-!
# Basic packet filter (`ebpf-programs/01-basic-filter.c`)

A shallow embedding of the TC classifier `packet_filter` and of its helpers
`can_read` and `parse_eth`, followed by the properties proved about them.

Conventions of the embedding

* Pointers are natural-number addresses.  The packet occupies the addresses
  `skb.data ..< skb.data_end`; a load outside that range yields `none`, so a
  result `some _` of `packet_filter` also says that no load left the packet.
* `__u8`, `__u16`, `__u32` and `__u64` values are natural numbers; the only
  arithmetic that can leave its width, the 64-bit counter increment, is
  reduced modulo `2 ^ 64` explicitly.
* The two BPF maps are passed in and returned explicitly (`BpfMaps`).
-/

namespace BasicFilter

/-! ## Constants taken from the kernel headers the program includes -/

/-- EtherType of IPv4 (`linux/if_ether.h`). -/
def ETH_P_IP : Nat := 0x0800

/-- Verdict "continue processing" (`linux/pkt_cls.h`). -/
def TC_ACT_OK : Int := 0

/-- Verdict "drop the packet" (`linux/pkt_cls.h`). -/
def TC_ACT_SHOT : Int := 2

/-- IP protocol number of ICMP (`linux/in.h`). -/
def IPPROTO_ICMP : Nat := 1

/-- IP protocol number of TCP (`linux/in.h`). -/
def IPPROTO_TCP : Nat := 6

/-- IP protocol number of UDP (`linux/in.h`). -/
def IPPROTO_UDP : Nat := 17

/-- Size in bytes of `struct ethhdr`. -/
def sizeof_ethhdr : Nat := 14

/-- Size in bytes of `struct iphdr`. -/
def sizeof_iphdr : Nat := 20

/-- Size in bytes of `struct tcphdr`. -/
def sizeof_tcphdr : Nat := 20

/-- Size in bytes of `struct udphdr`. -/
def sizeof_udphdr : Nat := 8

/-- Offset of `h_proto` in `struct ethhdr`. -/
def offsetof_h_proto : Nat := 12

/-- Offset of the byte holding the bit-fields `ihl` (low nibble) and `version`
in `struct iphdr`. -/
def offsetof_ihl : Nat := 0

/-- Offset of `protocol` in `struct iphdr`. -/
def offsetof_protocol : Nat := 9

/-- Offset of `dest` in `struct tcphdr` and in `struct udphdr`. -/
def offsetof_dest : Nat := 2

/-- Number of entries of `stats_map` (`max_entries`). -/
def stats_max_entries : Nat := 256

/-! ## Packet memory -/

/-- One octet. -/
abbrev Byte := Fin 256

/-- The part of `struct __sk_buff` the program uses: the address `data` of
the first packet byte and the packet bytes themselves. -/
structure SkBuff where
  data : Nat
  pkt : List Byte

/-- Field `data_end`: the address one past the last packet byte. -/
def SkBuff.data_end (skb : SkBuff) : Nat := skb.data + skb.pkt.length

/-- Load of one byte at address `ptr`; `none` when `ptr` is outside the
packet. -/
def load8 (skb : SkBuff) (ptr : Nat) : Option Byte :=
  if skb.data ≤ ptr then skb.pkt[ptr - skb.data]? else none

/-- Load of a `__u16` at address `ptr` (little-endian target); `none` when
one of its two bytes is outside the packet. -/
def load16 (skb : SkBuff) (ptr : Nat) : Option Nat :=
  (load8 skb ptr).bind fun lo =>
  (load8 skb (ptr + 1)).bind fun hi =>
  some (lo.val + 256 * hi.val)

/-- Network-to-host conversion of a 16-bit value on a little-endian target:
the two bytes are swapped. -/
def bpf_ntohs (x : Nat) : Nat := (x % 256) * 256 + (x / 256) % 256

/-! ## BPF maps -/

/-- Contents of `stats_map`: `__u32` key to `__u64` value, `none` for a key
on which `bpf_map_lookup_elem` returns `NULL`. -/
abbrev StatsMap := Nat → Option Nat

/-- Contents of `allowed_protocols`: `__u8` key to `__u8` value, `none` for a
key that is not in the hash map. -/
abbrev PolicyMap := Byte → Option Byte

/-- The two maps of the object file. -/
structure BpfMaps where
  stats_map : StatsMap
  allowed_protocols : PolicyMap

/-- Helper `bpf_map_lookup_elem`: the value stored under `key`, or `none`
(`NULL`). -/
def bpf_map_lookup_elem {K V : Type} (m : K → Option V) (key : K) : Option V :=
  m key

/-- Helper `bpf_map_update_elem` with flag `BPF_ANY` on `stats_map`: stores
`value` under `key`, creating or overwriting the entry; a key outside the
array is refused and the map is left as it is. -/
def bpf_map_update_elem (m : StatsMap) (key value : Nat) : StatsMap :=
  if key < stats_max_entries then fun k => if k = key then some value else m k
  else m

/-- Builtin `__sync_fetch_and_add` applied to the `__u64` slot of `key`: adds
`n` to the stored value modulo `2 ^ 64`. -/
def sync_fetch_and_add (m : StatsMap) (key n : Nat) : StatsMap :=
  fun k => if k = key then (m k).map fun c => (c + n) % 2 ^ 64 else m k

/-- State of `stats_map` when the program is loaded: an array map has all of
its `max_entries` slots present and zero. -/
def stats_map_init : StatsMap :=
  fun k => if k < stats_max_entries then some 0 else none

/-! ## The program -/

/-- Function `can_read`: `ptr + size <= data_end`. -/
def can_read (ptr data_end size : Nat) : Bool :=
  decide (ptr + size ≤ data_end)

/-- Function `parse_eth`: returns the EtherType in host order together with
the value left in `*l3_hdr`; on a truncated Ethernet header it returns `0`
and leaves `*l3_hdr` as it was. -/
def parse_eth (skb : SkBuff) (l3_hdr : Nat) : Option (Nat × Nat) :=
  let data := skb.data
  let data_end := skb.data_end
  let eth := data
  if !can_read eth data_end sizeof_ethhdr then
    some (0, l3_hdr)
  else
    (load16 skb (eth + offsetof_h_proto)).bind fun h_proto =>
    some (bpf_ntohs h_proto, data + sizeof_ethhdr)

/-- Function `packet_filter`: the verdict and the maps after the call. -/
def packet_filter (skb : SkBuff) (maps : BpfMaps) : Option (Int × BpfMaps) :=
  let data_end := skb.data_end
  -- STEP 1: parse Ethernet header
  (parse_eth skb 0).bind fun r =>
  let eth_proto := r.1
  let l3_hdr := r.2
  if eth_proto ≠ ETH_P_IP then
    some (TC_ACT_OK, maps)
  else
    -- STEP 2: parse IP header
    let ip := l3_hdr
    if !can_read ip data_end sizeof_iphdr then
      some (TC_ACT_OK, maps)
    else
      (load8 skb (ip + offsetof_protocol)).bind fun ip_proto =>
      -- STEP 3: update statistics
      let stats_key := ip_proto.val
      let stats :=
        match bpf_map_lookup_elem maps.stats_map stats_key with
        | some _ => sync_fetch_and_add maps.stats_map stats_key 1
        | none => bpf_map_update_elem maps.stats_map stats_key 1
      let maps1 : BpfMaps := { maps with stats_map := stats }
      -- STEP 4: check if protocol is allowed
      match bpf_map_lookup_elem maps1.allowed_protocols ip_proto with
      | none => some (TC_ACT_OK, maps1)
      | some allowed =>
        if allowed.val = 0 then
          some (TC_ACT_SHOT, maps1)
        else
          -- STEP 5: protocol-specific inspection
          (load8 skb (ip + offsetof_ihl)).bind fun vihl =>
          let ihl := vihl.val % 16
          let l4_hdr := l3_hdr + ihl * 4
          if ip_proto.val = IPPROTO_TCP then
            let tcp := l4_hdr
            if !can_read tcp data_end sizeof_tcphdr then
              some (TC_ACT_OK, maps1)
            else
              (load16 skb (tcp + offsetof_dest)).bind fun dest =>
              let dport := bpf_ntohs dest
              if dport = 23 then some (TC_ACT_SHOT, maps1)
              else some (TC_ACT_OK, maps1)
          else if ip_proto.val = IPPROTO_UDP then
            let udp := l4_hdr
            if !can_read udp data_end sizeof_udphdr then
              some (TC_ACT_OK, maps1)
            else
              (load16 skb (udp + offsetof_dest)).bind fun dest =>
              let dport := bpf_ntohs dest
              if dport = 53 then some (TC_ACT_OK, maps1)
              else some (TC_ACT_OK, maps1)
          else if ip_proto.val = IPPROTO_ICMP then
            some (TC_ACT_OK, maps1)
          else
            -- STEP 6: default action
            some (TC_ACT_OK, maps1)

/-! ## Vocabulary of the statements -/

/-- Byte `i` of the frame as a number (`0` past the end of the frame). -/
def SkBuff.byte (skb : SkBuff) (i : Nat) : Nat := (skb.pkt.getD i 0).val

/-- The 16-bit big-endian value held in bytes `i` and `i + 1` of the frame. -/
def SkBuff.be16 (skb : SkBuff) (i : Nat) : Nat :=
  256 * skb.byte i + skb.byte (i + 1)

/-- The verdict of one call, `none` if the call faulted. -/
def verdict (skb : SkBuff) (maps : BpfMaps) : Option Int :=
  (packet_filter skb maps).map Prod.fst

/-- The statistics table after one call, `none` if the call faulted. -/
def stats_after (skb : SkBuff) (maps : BpfMaps) : Option StatsMap :=
  (packet_filter skb maps).map fun r => r.2.stats_map

/-- The statistics update of STEP 3 for protocol id `p`. -/
def stats_step (m : StatsMap) (p : Nat) : StatsMap :=
  match bpf_map_lookup_elem m p with
  | some _ => sync_fetch_and_add m p 1
  | none => bpf_map_update_elem m p 1

/-- Sequential processing of a list of frames, each paired with the policy
table in force when it arrives; the statistics table is threaded through the
calls. -/
def run_packets : List (SkBuff × PolicyMap) → StatsMap → Option StatsMap
  | [], st => some st
  | x :: rest, st =>
    (packet_filter x.1 ⟨st, x.2⟩).bind fun r => run_packets rest r.2.stats_map

/-! ## Concrete frames and tables -/

/-- An Ethernet frame carrying IPv4: twelve address bytes, EtherType `0x0800`,
an IPv4 header of twenty bytes with first byte `vihl` and protocol `proto`,
then `rest`. -/
def ipv4_frame (vihl proto : Byte) (rest : List Byte) : List Byte :=
  List.replicate 12 0 ++ [8, 0] ++ [vihl] ++ List.replicate 8 0 ++ [proto] ++
    List.replicate 10 0 ++ rest

/-- A TCP header of twenty bytes with destination port `256 * hi + lo`. -/
def tcp_segment (hi lo : Byte) : List Byte := [0, 0, hi, lo] ++ List.replicate 16 0

/-- A UDP header of eight bytes with destination port `256 * hi + lo`. -/
def udp_datagram (hi lo : Byte) : List Byte := [0, 0, hi, lo, 0, 8, 0, 0]

/-- The policy table with the single entry `p ↦ v`. -/
def policy_single (p v : Byte) : PolicyMap := fun k => if k = p then some v else none

/-- The policy table without entries. -/
def policy_empty : PolicyMap := fun _ => none

/-- A statistics table whose 256 counters all hold the largest `__u64`. -/
def stats_map_full : StatsMap :=
  fun k => if k < stats_max_entries then some (2 ^ 64 - 1) else none

/-- Three parsed TCP frames with three different policy tables: port 23
under an explicit allow, port 80 under a deny, and a frame cut inside the TCP
header under an empty table. -/
def three_tcp_packets : List (SkBuff × PolicyMap) :=
  [(⟨4096, ipv4_frame 0x45 6 (tcp_segment 0 23)⟩, policy_single 6 1),
   (⟨8192, ipv4_frame 0x46 6 (tcp_segment 0 80)⟩, policy_single 6 0),
   (⟨0, ipv4_frame 0x45 6 ((tcp_segment 0 23).take 7)⟩, policy_empty)]

/-- The condition under which the verdict is claimed to be DROP: the Ethernet
and IPv4 headers parse, the policy table has an entry for the protocol id, and
that entry is `0` or the frame is TCP with a complete header and destination
port 23. -/
def drop_condition (skb : SkBuff) (pol : PolicyMap) : Prop :=
  34 ≤ skb.pkt.length ∧ skb.be16 12 = 0x0800 ∧
    ∃ a : Byte, pol (skb.pkt.getD 23 0) = some a ∧
      (a.val = 0 ∨
        (skb.byte 23 = 6 ∧ 14 + 4 * (skb.byte 14 % 16) + 20 ≤ skb.pkt.length ∧
          skb.be16 (14 + 4 * (skb.byte 14 % 16) + 2) = 23))

/-- The maps after one call: the statistics step is applied when the Ethernet
and IPv4 headers parse, and nothing changes otherwise. -/
def maps_after (skb : SkBuff) (maps : BpfMaps) : BpfMaps :=
  if 34 ≤ skb.pkt.length ∧ skb.be16 12 = 0x0800 then
    ⟨stats_step maps.stats_map (skb.byte 23), maps.allowed_protocols⟩
  else maps

/-- The control-plane write `allowed_protocols[p] = v` on a policy table. -/
def policy_set (pol : PolicyMap) (p v : Byte) : PolicyMap :=
  fun k => if k = p then some v else pol k

/-- The count read from a statistics table for key `k` (`0` for a key without
entry). -/
def StatsMap.count (m : StatsMap) (k : Nat) : Nat := (m k).getD 0

/-- The frame `frame` with its first twelve bytes, the Ethernet destination
and source addresses, replaced by `mac`. -/
def with_addresses (mac frame : List Byte) : List Byte := mac ++ frame.drop 12

/-! ## Loads inside the packet -/

theorem load8_at (skb : SkBuff) (i : Nat) (h : i < skb.pkt.length) :
    load8 skb (skb.data + i) = some (skb.pkt.getD i 0) := by
  simp [load8, List.getD_eq_getElem?_getD, List.getElem?_eq_getElem h]

theorem load16_at (skb : SkBuff) (i : Nat) (h : i + 1 < skb.pkt.length) :
    load16 skb (skb.data + i) = some (skb.byte i + 256 * skb.byte (i + 1)) := by
  have h0 : i < skb.pkt.length := by omega
  simp [load16, load8_at skb i h0, Nat.add_assoc, load8_at skb (i + 1) h, SkBuff.byte]

theorem bpf_ntohs_le (lo hi : Nat) (hlo : lo < 256) (hhi : hi < 256) :
    bpf_ntohs (lo + 256 * hi) = 256 * lo + hi := by
  unfold bpf_ntohs
  omega

theorem byte_lt (skb : SkBuff) (i : Nat) : skb.byte i < 256 :=
  (skb.pkt.getD i 0).isLt

theorem can_read_iff (skb : SkBuff) (i size : Nat) :
    can_read (skb.data + i) skb.data_end size = decide (i + size ≤ skb.pkt.length) := by
  simp [can_read, SkBuff.data_end, Nat.add_assoc]

theorem parse_eth_ok (skb : SkBuff) (l3 : Nat) (hlen : 14 ≤ skb.pkt.length) :
    parse_eth skb l3 = some (skb.be16 12, skb.data + 14) := by
  have hc : can_read skb.data skb.data_end 14 = true := by
    simp [can_read, SkBuff.data_end, hlen]
  have hl := load16_at skb 12 (by omega)
  simp [parse_eth, hc, offsetof_h_proto, hl, sizeof_ethhdr,
    bpf_ntohs_le _ _ (byte_lt skb 12) (byte_lt skb 13), SkBuff.be16]

theorem parse_eth_short (skb : SkBuff) (l3 : Nat) (hlen : skb.pkt.length < 14) :
    parse_eth skb l3 = some (0, l3) := by
  have hc : can_read skb.data skb.data_end sizeof_ethhdr = false := by
    simp [can_read, SkBuff.data_end, sizeof_ethhdr, hlen]
  simp [parse_eth, hc]

theorem load16_bind_at {β : Type} (skb : SkBuff) (i : Nat) (g : Nat → Option β)
    (h : i + 1 < skb.pkt.length) :
    ((load16 skb (skb.data + i)).bind fun a => g (bpf_ntohs a)) = g (skb.be16 i) := by
  rw [load16_at skb i h]
  simp [bpf_ntohs_le _ _ (byte_lt skb i) (byte_lt skb (i + 1)), SkBuff.be16]

/-- On a frame whose Ethernet and IPv4 headers parse, `packet_filter` written
out in terms of frame offsets: the statistics step, the policy lookup and the
TCP port test. -/
theorem packet_filter_ipv4 (skb : SkBuff) (maps : BpfMaps)
    (hlen : 34 ≤ skb.pkt.length) (heth : skb.be16 12 = ETH_P_IP) :
    packet_filter skb maps =
      (let p := skb.pkt.getD 23 0
       let maps1 : BpfMaps := { maps with stats_map := stats_step maps.stats_map p.val }
       match maps.allowed_protocols p with
       | none => some (TC_ACT_OK, maps1)
       | some a =>
         if a.val = 0 then some (TC_ACT_SHOT, maps1)
         else if p.val = 6 ∧ 14 + 4 * (skb.byte 14 % 16) + 20 ≤ skb.pkt.length
              ∧ skb.be16 (14 + 4 * (skb.byte 14 % 16) + 2) = 23
           then some (TC_ACT_SHOT, maps1)
           else some (TC_ACT_OK, maps1)) := by
  have hp := parse_eth_ok skb 0 (by omega)
  have hip : can_read (skb.data + 14) skb.data_end sizeof_iphdr = true := by
    rw [can_read_iff]; simp [sizeof_iphdr]; omega
  have h23 : load8 skb (skb.data + 14 + offsetof_protocol) = some (skb.pkt.getD 23 0) := by
    rw [Nat.add_assoc]; exact load8_at skb 23 (by omega)
  have h14 : load8 skb (skb.data + 14 + offsetof_ihl) = some (skb.pkt.getD 14 0) := by
    rw [Nat.add_assoc]; exact load8_at skb 14 (by omega)
  unfold packet_filter
  simp only [hp, Option.some_bind, heth, ne_eq, not_true_eq_false, if_false, hip,
    Bool.not_true, Bool.false_eq_true, h23, h14, bpf_map_lookup_elem]
  have ho : skb.data + 14 + (skb.pkt.getD 14 0).val % 16 * 4
      = skb.data + (14 + 4 * (skb.byte 14 % 16)) := by
    show skb.data + 14 + skb.byte 14 % 16 * 4 = _
    omega
  have ho2 : skb.data + (14 + 4 * (skb.byte 14 % 16)) + offsetof_dest
      = skb.data + (14 + 4 * (skb.byte 14 % 16) + 2) := by
    simp [offsetof_dest, Nat.add_assoc]
  simp only [ho, ho2, can_read_iff, sizeof_tcphdr, sizeof_udphdr, IPPROTO_TCP, IPPROTO_UDP,
    IPPROTO_ICMP, stats_step, bpf_map_lookup_elem]
  generalize skb.pkt.getD 23 0 = p
  generalize (⟨match maps.stats_map p.val with
      | some _ => sync_fetch_and_add maps.stats_map p.val 1
      | none => bpf_map_update_elem maps.stats_map p.val 1, maps.allowed_protocols⟩ : BpfMaps) = m1
  cases maps.allowed_protocols p with
  | none => rfl
  | some a =>
    by_cases ha : a.val = 0
    · simp only [ha, if_true]
    · by_cases htcp : p.val = 6
      · by_cases hfit : 14 + 4 * (skb.byte 14 % 16) + 20 ≤ skb.pkt.length
        · simp only [ha, htcp, hfit, if_false, if_true, decide_True, Bool.not_true, true_and]
          rw [load16_bind_at skb _ (fun d => if d = 23 then _ else _) (by omega)]
          simp
        · simp [ha, htcp, hfit]
      · by_cases hudp : p.val = 17
        · by_cases hfit : 14 + 4 * (skb.byte 14 % 16) + 8 ≤ skb.pkt.length
          · simp only [ha, htcp, hudp, hfit, if_false, if_true, decide_True, Bool.not_true,
              false_and]
            rw [load16_bind_at skb _ (fun d => if d = 53 then _ else _) (by omega)]
            simp
          · simp [ha, htcp, hudp, hfit]
        · simp [ha, htcp, hudp]

theorem getD_eq_of_byte (skb : SkBuff) (i : Nat) (n : Byte) (h : skb.byte i = n.val) :
    skb.pkt.getD i 0 = n :=
  Fin.ext h

/-! ## Policy verdicts -/

/-- C1: a frame of at least 34 bytes with EtherType 0x0800 whose protocol id
(byte 23) has the policy value 0 is dropped, whatever the IHL nibble, the
length beyond 34 and the bytes after the IPv4 header are. -/
theorem denied_protocol_is_dropped (skb : SkBuff) (maps : BpfMaps)
    (hlen : 34 ≤ skb.pkt.length) (heth : skb.be16 12 = 0x0800)
    (hdeny : maps.allowed_protocols (skb.pkt.getD 23 0) = some 0) :
    verdict skb maps = some TC_ACT_SHOT := by
  simp [-List.getD_eq_getElem?_getD, verdict, packet_filter_ipv4 skb maps hlen heth, hdeny]

/-- Witness of C1: a UDP datagram to port 53 under a policy that denies
protocol 17. -/
theorem denied_protocol_is_dropped_witness :
    (ipv4_frame 0x45 17 (udp_datagram 0 53)).getD 23 0 = 17 ∧
    SkBuff.be16 ⟨4096, ipv4_frame 0x45 17 (udp_datagram 0 53)⟩ 36 = 53 ∧
    verdict ⟨4096, ipv4_frame 0x45 17 (udp_datagram 0 53)⟩
      ⟨stats_map_init, policy_single 17 0⟩ = some TC_ACT_SHOT :=
  ⟨by decide, by decide,
    denied_protocol_is_dropped ⟨4096, ipv4_frame 0x45 17 (udp_datagram 0 53)⟩
      ⟨stats_map_init, policy_single 17 0⟩ (by decide) (by decide) (by decide)⟩

/-- C2: for a frame of at least 34 bytes with EtherType 0x0800, protocol id 6,
a non-zero policy value for 6 and a complete 20-byte TCP header at offset
`o = 14 + 4 * ihl`, the verdict is DROP exactly when the big-endian
destination port at `o + 2` is 23, and PASS otherwise. -/
theorem tcp_allowed_drop_iff_port_23 (skb : SkBuff) (maps : BpfMaps) (a : Byte)
    (hlen : 34 ≤ skb.pkt.length) (heth : skb.be16 12 = 0x0800)
    (hproto : skb.byte 23 = 6)
    (hallow : maps.allowed_protocols 6 = some a) (ha : a ≠ 0)
    (hfit : 14 + 4 * (skb.byte 14 % 16) + 20 ≤ skb.pkt.length) :
    (verdict skb maps = some TC_ACT_SHOT ↔
        256 * skb.byte (14 + 4 * (skb.byte 14 % 16) + 2)
          + skb.byte (14 + 4 * (skb.byte 14 % 16) + 3) = 23) ∧
    (256 * skb.byte (14 + 4 * (skb.byte 14 % 16) + 2)
          + skb.byte (14 + 4 * (skb.byte 14 % 16) + 3) ≠ 23 →
        verdict skb maps = some TC_ACT_OK) := by
  have hp : skb.pkt.getD 23 0 = 6 := getD_eq_of_byte skb 23 6 hproto
  have ha0 : a.val ≠ 0 := fun h => ha (Fin.ext h)
  have hv : verdict skb maps =
      if skb.be16 (14 + 4 * (skb.byte 14 % 16) + 2) = 23 then some TC_ACT_SHOT
      else some TC_ACT_OK := by
    simp only [verdict, packet_filter_ipv4 skb maps hlen heth, hp, hallow]
    have h6 : ((6 : Byte) : Nat) = 6 := rfl
    by_cases hport : skb.be16 (14 + 4 * (skb.byte 14 % 16) + 2) = 23
    · simp [ha0, hfit, hport, h6]
    · simp [ha0, hfit, hport, h6]
  have hbe : skb.be16 (14 + 4 * (skb.byte 14 % 16) + 2)
      = 256 * skb.byte (14 + 4 * (skb.byte 14 % 16) + 2)
          + skb.byte (14 + 4 * (skb.byte 14 % 16) + 3) := rfl
  rw [hv, hbe]
  constructor
  · constructor
    · intro h
      by_contra hne
      rw [if_neg hne] at h
      exact absurd (Option.some.inj h) (by decide)
    · intro h
      rw [if_pos h]
  · intro hne
    rw [if_neg hne]

/-- Witness of C2: ihl = 5, destination port 23, explicit allow for TCP. -/
theorem tcp_allowed_drop_iff_port_23_witness :
    (verdict ⟨4096, ipv4_frame 0x45 6 (tcp_segment 0 23)⟩
        ⟨stats_map_init, policy_single 6 1⟩ = some TC_ACT_SHOT ↔
      256 * SkBuff.byte ⟨4096, ipv4_frame 0x45 6 (tcp_segment 0 23)⟩
          (14 + 4 * (SkBuff.byte ⟨4096, ipv4_frame 0x45 6 (tcp_segment 0 23)⟩ 14 % 16) + 2)
        + SkBuff.byte ⟨4096, ipv4_frame 0x45 6 (tcp_segment 0 23)⟩
          (14 + 4 * (SkBuff.byte ⟨4096, ipv4_frame 0x45 6 (tcp_segment 0 23)⟩ 14 % 16) + 3)
        = 23) ∧
    (256 * SkBuff.byte ⟨4096, ipv4_frame 0x45 6 (tcp_segment 0 23)⟩
          (14 + 4 * (SkBuff.byte ⟨4096, ipv4_frame 0x45 6 (tcp_segment 0 23)⟩ 14 % 16) + 2)
        + SkBuff.byte ⟨4096, ipv4_frame 0x45 6 (tcp_segment 0 23)⟩
          (14 + 4 * (SkBuff.byte ⟨4096, ipv4_frame 0x45 6 (tcp_segment 0 23)⟩ 14 % 16) + 3)
        ≠ 23 →
      verdict ⟨4096, ipv4_frame 0x45 6 (tcp_segment 0 23)⟩
        ⟨stats_map_init, policy_single 6 1⟩ = some TC_ACT_OK) :=
  tcp_allowed_drop_iff_port_23 ⟨4096, ipv4_frame 0x45 6 (tcp_segment 0 23)⟩
    ⟨stats_map_init, policy_single 6 1⟩ 1 (by decide) (by decide) (by decide) (by decide)
    (by decide) (by decide)

/-- C3: a frame of at least 34 bytes with EtherType 0x0800 whose protocol id
has no entry in the policy table passes, whatever follows the IPv4 header. -/
theorem absent_policy_passes (skb : SkBuff) (maps : BpfMaps)
    (hlen : 34 ≤ skb.pkt.length) (heth : skb.be16 12 = 0x0800)
    (habsent : maps.allowed_protocols (skb.pkt.getD 23 0) = none) :
    verdict skb maps = some TC_ACT_OK := by
  simp [-List.getD_eq_getElem?_getD, verdict, packet_filter_ipv4 skb maps hlen heth, habsent]

/-- Witness of C3: a TCP segment to port 23 with an empty policy table. -/
theorem absent_policy_passes_witness :
    SkBuff.be16 ⟨4096, ipv4_frame 0x45 6 (tcp_segment 0 23)⟩ 36 = 23 ∧
    verdict ⟨4096, ipv4_frame 0x45 6 (tcp_segment 0 23)⟩
      ⟨stats_map_init, policy_empty⟩ = some TC_ACT_OK :=
  ⟨by decide,
    absent_policy_passes ⟨4096, ipv4_frame 0x45 6 (tcp_segment 0 23)⟩
      ⟨stats_map_init, policy_empty⟩ (by decide) (by decide) (by decide)⟩

/-! ## Fail-open paths -/

theorem packet_filter_no_eth (skb : SkBuff) (maps : BpfMaps) (hlen : skb.pkt.length < 14) :
    packet_filter skb maps = some (TC_ACT_OK, maps) := by
  simp [packet_filter, parse_eth_short skb 0 hlen, ETH_P_IP]

/-- C4: a frame shorter than 14 bytes, or whose EtherType is not 0x0800,
passes and both maps, the statistics table in particular, are returned as they
were. -/
theorem non_ipv4_passes_untouched (skb : SkBuff) (maps : BpfMaps)
    (h : skb.pkt.length < 14 ∨ skb.be16 12 ≠ 0x0800) :
    packet_filter skb maps = some (TC_ACT_OK, maps) := by
  by_cases hlen : skb.pkt.length < 14
  · exact packet_filter_no_eth skb maps hlen
  · have hne : skb.be16 12 ≠ 0x0800 := h.resolve_left hlen
    simp [packet_filter, parse_eth_ok skb 0 (by omega), ETH_P_IP, hne]

/-- Witness of C4: an IPv6 frame (EtherType 0x86DD) of 54 bytes. -/
theorem non_ipv4_passes_untouched_witness :
    packet_filter ⟨4096, List.replicate 12 0 ++ [0x86, 0xDD] ++ List.replicate 40 0⟩
        ⟨stats_map_init, policy_single 6 0⟩
      = some (TC_ACT_OK, ⟨stats_map_init, policy_single 6 0⟩) :=
  non_ipv4_passes_untouched
    ⟨4096, List.replicate 12 0 ++ [0x86, 0xDD] ++ List.replicate 40 0⟩
    ⟨stats_map_init, policy_single 6 0⟩ (Or.inr (by decide))

/-- C5: a frame with EtherType 0x0800 and fewer than 34 bytes passes and both
maps, the statistics table in particular, are returned as they were, also
when the policy denies the protocol byte. -/
theorem truncated_ipv4_passes_untouched (skb : SkBuff) (maps : BpfMaps)
    (heth : skb.be16 12 = 0x0800) (hlen : skb.pkt.length < 34) :
    packet_filter skb maps = some (TC_ACT_OK, maps) := by
  by_cases h14 : skb.pkt.length < 14
  · exact packet_filter_no_eth skb maps h14
  · have hip : can_read (skb.data + 14) skb.data_end sizeof_iphdr = false := by
      rw [can_read_iff]; simp [sizeof_iphdr]; omega
    simp [packet_filter, parse_eth_ok skb 0 (by omega), ETH_P_IP, heth, hip]

/-- Witness of C5: 33 bytes, protocol byte 6 present and denied. -/
theorem truncated_ipv4_passes_untouched_witness :
    (ipv4_frame 0x45 6 []).length = 34 ∧
    packet_filter ⟨4096, (ipv4_frame 0x45 6 []).take 33⟩
        ⟨stats_map_init, policy_single 6 0⟩
      = some (TC_ACT_OK, ⟨stats_map_init, policy_single 6 0⟩) :=
  ⟨by decide,
    truncated_ipv4_passes_untouched ⟨4096, (ipv4_frame 0x45 6 []).take 33⟩
      ⟨stats_map_init, policy_single 6 0⟩ (by decide) (by decide)⟩

/-! ## Statistics -/

theorem stats_step_self (m : StatsMap) (p : Nat) (hp : p < 256) :
    stats_step m p p =
      some (match m p with
        | some c => (c + 1) % 2 ^ 64
        | none => 1) := by
  unfold stats_step bpf_map_lookup_elem
  cases h : m p with
  | none => simp [bpf_map_update_elem, stats_max_entries, hp]
  | some c => simp [sync_fetch_and_add, h]

theorem stats_step_other (m : StatsMap) (p k : Nat) (hk : k ≠ p) :
    stats_step m p k = m k := by
  unfold stats_step bpf_map_lookup_elem
  cases m p with
  | none =>
    by_cases hp : p < stats_max_entries
    · simp [bpf_map_update_elem, hp, hk]
    · simp [bpf_map_update_elem, hp]
  | some c => simp [sync_fetch_and_add, hk]

/-- On a frame whose Ethernet and IPv4 headers parse, the call returns PASS or
DROP and the statistics table after it is `stats_step` of the one before. -/
theorem packet_filter_ipv4_stats (skb : SkBuff) (maps : BpfMaps)
    (hlen : 34 ≤ skb.pkt.length) (heth : skb.be16 12 = ETH_P_IP) :
    ∃ v, (v = TC_ACT_OK ∨ v = TC_ACT_SHOT) ∧
      packet_filter skb maps =
        some (v, ⟨stats_step maps.stats_map (skb.byte 23), maps.allowed_protocols⟩) := by
  rw [packet_filter_ipv4 skb maps hlen heth]
  dsimp only
  cases maps.allowed_protocols (skb.pkt.getD 23 0) with
  | none => exact ⟨_, Or.inl rfl, rfl⟩
  | some a =>
    dsimp only
    split_ifs
    · exact ⟨_, Or.inr rfl, rfl⟩
    · exact ⟨_, Or.inr rfl, rfl⟩
    · exact ⟨_, Or.inl rfl, rfl⟩

/-- C6, the claim as stated fails: with the counter of protocol 6 at
`2 ^ 64 - 1`, one parsed TCP frame leaves it at `0`, not at `2 ^ 64`. -/
theorem stats_increment_wraps_at_max :
    stats_map_full 6 = some (2 ^ 64 - 1) ∧
    (stats_after ⟨4096, ipv4_frame 0x45 6 (tcp_segment 0 80)⟩
        ⟨stats_map_full, policy_empty⟩).bind (fun st => st 6) = some 0 ∧
    (stats_after ⟨4096, ipv4_frame 0x45 6 (tcp_segment 0 80)⟩
        ⟨stats_map_full, policy_empty⟩).bind (fun st => st 6) ≠ some (2 ^ 64 - 1 + 1) := by
  decide

/-- C6 amended: on a frame of at least 34 bytes with EtherType 0x0800 and
protocol id `p` (byte 23), one call returns PASS or DROP and changes the
statistics table as one increment of `p`: the count of `p` becomes
`(old + 1) mod 2 ^ 64`, which is `old + 1` whenever that fits in 64 bits, or
`1` if the entry was absent, and the count of every other key is unchanged. -/
theorem stats_incremented_once (skb : SkBuff) (maps : BpfMaps)
    (hlen : 34 ≤ skb.pkt.length) (heth : skb.be16 12 = 0x0800) :
    ∃ v maps1, packet_filter skb maps = some (v, maps1) ∧
      (v = TC_ACT_OK ∨ v = TC_ACT_SHOT) ∧
      maps1.stats_map (skb.byte 23) =
        some (match maps.stats_map (skb.byte 23) with
          | some old => (old + 1) % 2 ^ 64
          | none => 1) ∧
      (∀ old, maps.stats_map (skb.byte 23) = some old → old + 1 < 2 ^ 64 →
        maps1.stats_map (skb.byte 23) = some (old + 1)) ∧
      (∀ k, k ≠ skb.byte 23 → maps1.stats_map k = maps.stats_map k) := by
  obtain ⟨v, hv, hpf⟩ := packet_filter_ipv4_stats skb maps hlen heth
  refine ⟨v, _, hpf, hv, stats_step_self _ _ (byte_lt skb 23), ?_, ?_⟩
  · intro old hold hfit
    show stats_step maps.stats_map (skb.byte 23) (skb.byte 23) = _
    rw [stats_step_self _ _ (byte_lt skb 23), hold]
    show some ((old + 1) % 2 ^ 64) = some (old + 1)
    rw [Nat.mod_eq_of_lt hfit]
  · intro k hk
    exact stats_step_other _ _ _ hk

/-- Witness of C6 amended: a TCP frame to port 23, allowed, on the initial
table. -/
theorem stats_incremented_once_witness :
    ∃ v maps1, packet_filter ⟨4096, ipv4_frame 0x45 6 (tcp_segment 0 23)⟩
        ⟨stats_map_init, policy_single 6 1⟩ = some (v, maps1) ∧
      (v = TC_ACT_OK ∨ v = TC_ACT_SHOT) ∧
      maps1.stats_map (SkBuff.byte ⟨4096, ipv4_frame 0x45 6 (tcp_segment 0 23)⟩ 23) =
        some (match stats_map_init (SkBuff.byte ⟨4096, ipv4_frame 0x45 6 (tcp_segment 0 23)⟩ 23) with
          | some old => (old + 1) % 2 ^ 64
          | none => 1) ∧
      (∀ old, stats_map_init (SkBuff.byte ⟨4096, ipv4_frame 0x45 6 (tcp_segment 0 23)⟩ 23)
          = some old → old + 1 < 2 ^ 64 →
        maps1.stats_map (SkBuff.byte ⟨4096, ipv4_frame 0x45 6 (tcp_segment 0 23)⟩ 23)
          = some (old + 1)) ∧
      (∀ k, k ≠ SkBuff.byte ⟨4096, ipv4_frame 0x45 6 (tcp_segment 0 23)⟩ 23 →
        maps1.stats_map k = stats_map_init k) :=
  stats_incremented_once ⟨4096, ipv4_frame 0x45 6 (tcp_segment 0 23)⟩
    ⟨stats_map_init, policy_single 6 1⟩ (by decide) (by decide)

theorem run_packets_count (p : Byte) :
    ∀ (l : List (SkBuff × PolicyMap)) (st : StatsMap) (c : Nat),
      (∀ x ∈ l, 34 ≤ x.1.pkt.length ∧ x.1.be16 12 = 0x0800 ∧ x.1.byte 23 = p.val) →
      st p.val = some c → c + l.length < 2 ^ 64 →
      ∃ st1, run_packets l st = some st1 ∧ st1 p.val = some (c + l.length) := by
  intro l
  induction l with
  | nil =>
    intro st c _ hc _
    exact ⟨st, rfl, by simpa using hc⟩
  | cons x rest ih =>
    intro st c hall hc hfit
    obtain ⟨hlen, heth, hproto⟩ := hall x (List.mem_cons_self x rest)
    obtain ⟨v, _, hpf⟩ := packet_filter_ipv4_stats x.1 ⟨st, x.2⟩ hlen heth
    have hstep : stats_step st p.val p.val = some (c + 1) := by
      rw [stats_step_self st p.val p.isLt, hc]
      show some ((c + 1) % 2 ^ 64) = some (c + 1)
      rw [Nat.mod_eq_of_lt (by simp only [List.length_cons] at hfit; omega)]
    have hrest : ∀ y ∈ rest,
        34 ≤ y.1.pkt.length ∧ y.1.be16 12 = 0x0800 ∧ y.1.byte 23 = p.val :=
      fun y hy => hall y (List.mem_cons_of_mem x hy)
    obtain ⟨st1, hrun, hcount⟩ := ih (stats_step st p.val) (c + 1) hrest hstep
      (by simp only [List.length_cons] at hfit; omega)
    refine ⟨st1, ?_, ?_⟩
    · show (packet_filter x.1 ⟨st, x.2⟩).bind (fun r => run_packets rest r.2.stats_map) = _
      rw [hpf, hproto]
      exact hrun
    · rw [hcount, List.length_cons]
      congr 1
      omega

/-- C7: starting from the zero-initialised statistics table and running
`packet_filter` one frame after the other on `N < 2 ^ 64` frames that all have
at least 34 bytes, EtherType 0x0800 and the same protocol id `p`, each with a
policy table of its own, every call returns and the final count of `p` is
`N`. -/
theorem count_after_n_packets (p : Byte) (l : List (SkBuff × PolicyMap))
    (hN : l.length < 2 ^ 64)
    (hall : ∀ x ∈ l, 34 ≤ x.1.pkt.length ∧ x.1.be16 12 = 0x0800 ∧ x.1.byte 23 = p.val) :
    ∃ st, run_packets l stats_map_init = some st ∧ st p.val = some l.length := by
  have h0 : stats_map_init p.val = some 0 := by
    simp [stats_map_init, stats_max_entries]
  obtain ⟨st, hrun, hcount⟩ := run_packets_count p l stats_map_init 0 hall h0 (by omega)
  exact ⟨st, hrun, by simpa using hcount⟩

/-- Witness of C7: three TCP frames, two of them dropped, count 3. -/
theorem count_after_n_packets_witness :
    ∃ st, run_packets three_tcp_packets stats_map_init = some st ∧
      st 6 = some 3 :=
  count_after_n_packets 6 three_tcp_packets (by decide) (by decide)

/-! ## Protocol-specific inspection -/

/-- With a non-zero policy value, every protocol other than TCP passes. -/
theorem allowed_non_tcp_passes (skb : SkBuff) (maps : BpfMaps) (a : Byte)
    (hlen : 34 ≤ skb.pkt.length) (heth : skb.be16 12 = ETH_P_IP)
    (hproto : skb.byte 23 ≠ 6)
    (hallow : maps.allowed_protocols (skb.pkt.getD 23 0) = some a) (ha : a ≠ 0) :
    verdict skb maps = some TC_ACT_OK := by
  have ha0 : a.val ≠ 0 := fun h => ha (Fin.ext h)
  have hp : (skb.pkt.getD 23 0).val ≠ 6 := hproto
  simp [-List.getD_eq_getElem?_getD, verdict, packet_filter_ipv4 skb maps hlen heth, hallow,
    ha0, hp]

/-- C8: a frame of at least 34 bytes with EtherType 0x0800, protocol id 17
and a non-zero policy value for 17 passes, for every destination port, every
IHL and whether or not the UDP header fits in the buffer. -/
theorem udp_allowed_passes (skb : SkBuff) (maps : BpfMaps) (a : Byte)
    (hlen : 34 ≤ skb.pkt.length) (heth : skb.be16 12 = 0x0800)
    (hproto : skb.byte 23 = 17)
    (hallow : maps.allowed_protocols 17 = some a) (ha : a ≠ 0) :
    verdict skb maps = some TC_ACT_OK := by
  have hp : skb.pkt.getD 23 0 = 17 := getD_eq_of_byte skb 23 17 hproto
  exact allowed_non_tcp_passes skb maps a hlen heth (by rw [hproto]; decide)
    (by rw [hp]; exact hallow) ha

/-- Witness of C8: a UDP datagram to port 9 (not 53), explicit allow. -/
theorem udp_allowed_passes_witness :
    SkBuff.be16 ⟨4096, ipv4_frame 0x45 17 (udp_datagram 0 9)⟩ 36 = 9 ∧
    verdict ⟨4096, ipv4_frame 0x45 17 (udp_datagram 0 9)⟩
      ⟨stats_map_init, policy_single 17 1⟩ = some TC_ACT_OK :=
  ⟨by decide,
    udp_allowed_passes ⟨4096, ipv4_frame 0x45 17 (udp_datagram 0 9)⟩
      ⟨stats_map_init, policy_single 17 1⟩ 1 (by decide) (by decide) (by decide) (by decide)
      (by decide)⟩

/-- C9: a frame of at least 34 bytes with EtherType 0x0800 and protocol id 1
passes when the policy table has no entry for 1 and when it has a non-zero
value for 1; and every protocol id other than 6 and 17 with a non-zero policy
value passes, whatever the rest of the frame is. -/
theorem icmp_and_other_protocols_pass (skb : SkBuff) (maps : BpfMaps)
    (hlen : 34 ≤ skb.pkt.length) (heth : skb.be16 12 = 0x0800) :
    (skb.byte 23 = 1 → maps.allowed_protocols 1 = none →
      verdict skb maps = some TC_ACT_OK) ∧
    (skb.byte 23 = 1 → ∀ a : Byte, a ≠ 0 → maps.allowed_protocols 1 = some a →
      verdict skb maps = some TC_ACT_OK) ∧
    (skb.byte 23 ≠ 6 → skb.byte 23 ≠ 17 → ∀ a : Byte, a ≠ 0 →
      maps.allowed_protocols (skb.pkt.getD 23 0) = some a →
      verdict skb maps = some TC_ACT_OK) := by
  refine ⟨?_, ?_, ?_⟩
  · intro hproto habsent
    have hp : skb.pkt.getD 23 0 = 1 := getD_eq_of_byte skb 23 1 hproto
    simp [-List.getD_eq_getElem?_getD, verdict, packet_filter_ipv4 skb maps hlen heth, hp,
      habsent]
  · intro hproto a ha hallow
    have hp : skb.pkt.getD 23 0 = 1 := getD_eq_of_byte skb 23 1 hproto
    exact allowed_non_tcp_passes skb maps a hlen heth (by rw [hproto]; decide)
      (by rw [hp]; exact hallow) ha
  · intro h6 _ a ha hallow
    exact allowed_non_tcp_passes skb maps a hlen heth h6 hallow ha

/-- Witness of C9: an ICMP frame passes with an empty policy table and with an
explicit allow for protocol 1. -/
theorem icmp_and_other_protocols_pass_witness :
    verdict ⟨4096, ipv4_frame 0x45 1 [8, 0, 0, 0]⟩ ⟨stats_map_init, policy_empty⟩
      = some TC_ACT_OK ∧
    verdict ⟨4096, ipv4_frame 0x45 1 [8, 0, 0, 0]⟩ ⟨stats_map_init, policy_single 1 1⟩
      = some TC_ACT_OK :=
  ⟨(icmp_and_other_protocols_pass ⟨4096, ipv4_frame 0x45 1 [8, 0, 0, 0]⟩
      ⟨stats_map_init, policy_empty⟩ (by decide) (by decide)).1 (by decide) (by decide),
   (icmp_and_other_protocols_pass ⟨4096, ipv4_frame 0x45 1 [8, 0, 0, 0]⟩
      ⟨stats_map_init, policy_single 1 1⟩ (by decide) (by decide)).2.1 (by decide) 1
      (by decide) (by decide)⟩

/-- C10: a frame of at least 34 bytes with EtherType 0x0800, protocol id 6
and a non-zero policy value for 6 whose buffer ends before `o + 20`, where
`o = 14 + 4 * ihl`, passes, also when the port bytes at `o + 2` and `o + 3`
are inside the buffer and encode 23. -/
theorem tcp_truncated_passes (skb : SkBuff) (maps : BpfMaps) (a : Byte)
    (hlen : 34 ≤ skb.pkt.length) (heth : skb.be16 12 = 0x0800)
    (hproto : skb.byte 23 = 6)
    (hallow : maps.allowed_protocols 6 = some a) (ha : a ≠ 0)
    (hcut : skb.pkt.length < 14 + 4 * (skb.byte 14 % 16) + 20) :
    verdict skb maps = some TC_ACT_OK := by
  have hp : skb.pkt.getD 23 0 = 6 := getD_eq_of_byte skb 23 6 hproto
  have ha0 : a.val ≠ 0 := fun h => ha (Fin.ext h)
  have hfit : ¬ 14 + 4 * (skb.byte 14 % 16) + 20 ≤ skb.pkt.length := by omega
  simp only [verdict, packet_filter_ipv4 skb maps hlen heth, hp, hallow]
  simp [ha0, hfit]

/-- Witness of C10: ihl = 5, length 53, bytes 36 and 37 are 0x00 0x17. -/
theorem tcp_truncated_passes_witness :
    ((ipv4_frame 0x45 6 (tcp_segment 0 23)).take 53).length = 53 ∧
    SkBuff.be16 ⟨4096, (ipv4_frame 0x45 6 (tcp_segment 0 23)).take 53⟩ 36 = 23 ∧
    verdict ⟨4096, (ipv4_frame 0x45 6 (tcp_segment 0 23)).take 53⟩
      ⟨stats_map_init, policy_single 6 1⟩ = some TC_ACT_OK :=
  ⟨by decide, by decide,
    tcp_truncated_passes ⟨4096, (ipv4_frame 0x45 6 (tcp_segment 0 23)).take 53⟩
      ⟨stats_map_init, policy_single 6 1⟩ 1 (by decide) (by decide) (by decide) (by decide)
      (by decide) (by decide)⟩

/-! ## The call on every frame -/

theorem packet_filter_unparsed (skb : SkBuff) (maps : BpfMaps)
    (h : ¬ (34 ≤ skb.pkt.length ∧ skb.be16 12 = 0x0800)) :
    packet_filter skb maps = some (TC_ACT_OK, maps) := by
  by_cases h14 : skb.pkt.length < 14
  · exact packet_filter_no_eth skb maps h14
  · by_cases heth : skb.be16 12 = 0x0800
    · have hip : can_read (skb.data + 14) skb.data_end sizeof_iphdr = false := by
        rw [can_read_iff]; simp [sizeof_iphdr]
        by_contra hge
        exact h ⟨by omega, heth⟩
      simp [packet_filter, parse_eth_ok skb 0 (by omega), ETH_P_IP, heth, hip]
    · simp [packet_filter, parse_eth_ok skb 0 (by omega), ETH_P_IP, heth]

/-- Every call returns: the maps after it are `maps_after`, and the verdict is
DROP under `drop_condition` and PASS otherwise. -/
theorem packet_filter_result (skb : SkBuff) (maps : BpfMaps) :
    ∃ v, packet_filter skb maps = some (v, maps_after skb maps) ∧
      (drop_condition skb maps.allowed_protocols → v = TC_ACT_SHOT) ∧
      (¬ drop_condition skb maps.allowed_protocols → v = TC_ACT_OK) := by
  by_cases hparse : 34 ≤ skb.pkt.length ∧ skb.be16 12 = 0x0800
  · obtain ⟨hlen, heth⟩ := hparse
    have hm : maps_after skb maps
        = ⟨stats_step maps.stats_map (skb.byte 23), maps.allowed_protocols⟩ := by
      simp [maps_after, hlen, heth]
    rw [hm, packet_filter_ipv4 skb maps hlen heth]
    dsimp only
    cases hpol : maps.allowed_protocols (skb.pkt.getD 23 0) with
    | none =>
      refine ⟨TC_ACT_OK, rfl, ?_, fun _ => rfl⟩
      rintro ⟨_, _, a, ha, _⟩
      rw [hpol] at ha
      exact absurd ha (by simp)
    | some a =>
      dsimp only
      by_cases ha0 : a.val = 0
      · rw [if_pos ha0]
        refine ⟨TC_ACT_SHOT, rfl, fun _ => rfl, ?_⟩
        intro hnot
        exact absurd ⟨hlen, heth, a, hpol, Or.inl ha0⟩ hnot
      · rw [if_neg ha0]
        by_cases htcp : (skb.pkt.getD 23 0).val = 6 ∧
            14 + 4 * (skb.byte 14 % 16) + 20 ≤ skb.pkt.length ∧
            skb.be16 (14 + 4 * (skb.byte 14 % 16) + 2) = 23
        · rw [if_pos htcp]
          refine ⟨TC_ACT_SHOT, rfl, fun _ => rfl, ?_⟩
          intro hnot
          exact absurd ⟨hlen, heth, a, hpol, Or.inr htcp⟩ hnot
        · rw [if_neg htcp]
          refine ⟨TC_ACT_OK, rfl, ?_, fun _ => rfl⟩
          rintro ⟨_, _, b, hb, hor⟩
          rw [hpol] at hb
          have hab : a = b := Option.some.inj hb
          subst hab
          rcases hor with h0 | h6
          · exact absurd h0 ha0
          · exact absurd h6 htcp
  · have hm : maps_after skb maps = maps := by
      simp [maps_after, hparse]
    rw [hm, packet_filter_unparsed skb maps hparse]
    refine ⟨TC_ACT_OK, rfl, ?_, fun _ => rfl⟩
    rintro ⟨hlen, heth, _⟩
    exact absurd ⟨hlen, heth⟩ hparse

/-! ## Memory safety and totality -/

theorem load8_none_iff (skb : SkBuff) (offset : Nat) :
    load8 skb (skb.data + offset) = none ↔ skb.pkt.length < offset + 1 := by
  simp [load8, List.getElem?_eq_none_iff]
  omega

theorem load16_none_iff (skb : SkBuff) (offset : Nat) :
    load16 skb (skb.data + offset) = none ↔ skb.pkt.length < offset + 2 := by
  by_cases h : offset + 1 < skb.pkt.length
  · rw [load16_at skb offset h]
    simp
    omega
  · have h1 : load8 skb (skb.data + offset + 1) = none := by
      rw [Nat.add_assoc, load8_none_iff]
      omega
    constructor
    · intro _
      omega
    · intro _
      unfold load16
      rw [h1]
      cases load8 skb (skb.data + offset) <;> rfl

theorem parse_eth_returns (skb : SkBuff) (l3_hdr : Nat) : parse_eth skb l3_hdr ≠ none := by
  by_cases h : skb.pkt.length < 14
  · rw [parse_eth_short skb l3_hdr h]
    simp
  · rw [parse_eth_ok skb l3_hdr (by omega)]
    simp

/-- C11: a load of `size` bytes at offset `offset` yields `none` exactly when
`offset + size` exceeds the buffer length, and neither `parse_eth` nor
`packet_filter` ever yields `none`, for every buffer (the empty one included)
and all tables: no load they perform leaves the buffer. -/
theorem no_read_out_of_bounds (skb : SkBuff) (maps : BpfMaps) (l3_hdr : Nat) :
    (∀ offset, load8 skb (skb.data + offset) = none ↔ skb.pkt.length < offset + 1) ∧
    (∀ offset, load16 skb (skb.data + offset) = none ↔ skb.pkt.length < offset + 2) ∧
    parse_eth skb l3_hdr ≠ none ∧
    packet_filter skb maps ≠ none := by
  refine ⟨load8_none_iff skb, load16_none_iff skb, parse_eth_returns skb l3_hdr, ?_⟩
  obtain ⟨v, hv, _⟩ := packet_filter_result skb maps
  rw [hv]
  simp

/-- C12: for every buffer and all tables the call returns one verdict, which
is PASS or DROP; it is PASS when the Ethernet header is truncated, when the
EtherType is not 0x0800, when the IPv4 header is truncated, and when the TCP
or UDP header that the inspection step parses is truncated. -/
theorem always_one_verdict (skb : SkBuff) (maps : BpfMaps) :
    ∃ v, verdict skb maps = some v ∧
      (∀ w, verdict skb maps = some w → w = v) ∧
      (v = TC_ACT_OK ∨ v = TC_ACT_SHOT) ∧
      (skb.pkt.length < 14 → v = TC_ACT_OK) ∧
      (skb.be16 12 ≠ 0x0800 → v = TC_ACT_OK) ∧
      (skb.pkt.length < 34 → v = TC_ACT_OK) ∧
      (∀ a : Byte, maps.allowed_protocols (skb.pkt.getD 23 0) = some a → a ≠ 0 →
        skb.byte 23 = 6 → skb.pkt.length < 14 + 4 * (skb.byte 14 % 16) + 20 →
        v = TC_ACT_OK) ∧
      (∀ a : Byte, maps.allowed_protocols (skb.pkt.getD 23 0) = some a → a ≠ 0 →
        skb.byte 23 = 17 → skb.pkt.length < 14 + 4 * (skb.byte 14 % 16) + 8 →
        v = TC_ACT_OK) := by
  obtain ⟨v, hv, hdrop, hpass⟩ := packet_filter_result skb maps
  have hver : verdict skb maps = some v := by
    simp [verdict, hv]
  refine ⟨v, hver, ?_, ?_, ?_, ?_, ?_, ?_, ?_⟩
  · intro w hw
    rw [hver] at hw
    exact (Option.some.inj hw).symm
  · by_cases hd : drop_condition skb maps.allowed_protocols
    · exact Or.inr (hdrop hd)
    · exact Or.inl (hpass hd)
  · intro hlen
    apply hpass
    rintro ⟨h34, _⟩
    omega
  · intro hne
    apply hpass
    rintro ⟨_, heth, _⟩
    exact hne heth
  · intro hlen
    apply hpass
    rintro ⟨h34, _⟩
    omega
  · intro a ha hne h6 hcut
    apply hpass
    rintro ⟨_, _, b, hb, hor⟩
    rw [ha] at hb
    have hab : a = b := Option.some.inj hb
    subst hab
    rcases hor with h0 | ⟨_, hfit, _⟩
    · exact hne (Fin.ext h0)
    · omega
  · intro a ha hne h17 _
    apply hpass
    rintro ⟨_, _, b, hb, hor⟩
    rw [ha] at hb
    have hab : a = b := Option.some.inj hb
    subst hab
    rcases hor with h0 | ⟨h6, _, _⟩
    · exact hne (Fin.ext h0)
    · omega

/-- C13: `can_read (data + offset, data + L, size)` is true exactly when
`offset + size <= L`, for every base address, buffer length, offset and size;
in particular on the buffer of a frame. -/
theorem can_read_iff_in_bounds (data L offset size : Nat) (skb : SkBuff) :
    (can_read (data + offset) (data + L) size = true ↔ offset + size ≤ L) ∧
    (can_read (skb.data + offset) skb.data_end size = true ↔
      offset + size ≤ skb.pkt.length) := by
  constructor
  · simp [can_read, Nat.add_assoc]
  · simp [can_read, SkBuff.data_end, Nat.add_assoc]

/-! ## Counters never decrease below the wrap -/

theorem maps_after_stats (skb : SkBuff) (maps : BpfMaps) :
    (maps_after skb maps).stats_map =
      if 34 ≤ skb.pkt.length ∧ skb.be16 12 = 0x0800 then
        stats_step maps.stats_map (skb.byte 23)
      else maps.stats_map := by
  unfold maps_after
  split_ifs <;> rfl

theorem maps_after_policy (skb : SkBuff) (maps : BpfMaps) :
    (maps_after skb maps).allowed_protocols = maps.allowed_protocols := by
  unfold maps_after
  split_ifs <;> rfl

/-- C14, the claim as stated fails: with the counter of protocol 17 at
`2 ^ 64 - 1`, one parsed UDP frame leaves it at `0`, which is smaller. -/
theorem counter_decreases_at_max :
    StatsMap.count stats_map_full 17 = 2 ^ 64 - 1 ∧
    (stats_after ⟨4096, ipv4_frame 0x45 17 (udp_datagram 0 53)⟩
        ⟨stats_map_full, policy_single 17 1⟩).map (fun st => StatsMap.count st 17) = some 0 ∧
    (stats_after ⟨4096, ipv4_frame 0x45 17 (udp_datagram 0 53)⟩
        ⟨stats_map_full, policy_single 17 1⟩).map
      (fun st => decide (StatsMap.count stats_map_full 17 ≤ StatsMap.count st 17))
      = some false := by
  decide

/-- C14 amended: for every frame, all tables and every key `k` whose count is
a 64-bit value, the call returns and the count of `k` after it is at least the
count before it, except in one case: the Ethernet and IPv4 headers parse, `k`
is the protocol id of the frame and its count is `2 ^ 64 - 1`; in that case
the count of `k` after the call is `0`. -/
theorem counters_monotone_below_max (skb : SkBuff) (maps : BpfMaps) (k : Nat)
    (h64 : ∀ c, maps.stats_map k = some c → c < 2 ^ 64) :
    ∃ v maps1, packet_filter skb maps = some (v, maps1) ∧
      (¬ (34 ≤ skb.pkt.length ∧ skb.be16 12 = 0x0800 ∧ k = skb.byte 23 ∧
          maps.stats_map k = some (2 ^ 64 - 1)) →
        StatsMap.count maps.stats_map k ≤ StatsMap.count maps1.stats_map k) ∧
      ((34 ≤ skb.pkt.length ∧ skb.be16 12 = 0x0800 ∧ k = skb.byte 23 ∧
          maps.stats_map k = some (2 ^ 64 - 1)) →
        StatsMap.count maps1.stats_map k = 0) := by
  obtain ⟨v, hv, _⟩ := packet_filter_result skb maps
  refine ⟨v, _, hv, ?_, ?_⟩
  · intro hnot
    rw [maps_after_stats]
    by_cases hparse : 34 ≤ skb.pkt.length ∧ skb.be16 12 = 0x0800
    · rw [if_pos hparse]
      by_cases hk : k = skb.byte 23
      · unfold StatsMap.count
        rw [hk, stats_step_self _ _ (byte_lt skb 23)]
        cases hc : maps.stats_map (skb.byte 23) with
        | none => simp
        | some c =>
          have hlt : c < 2 ^ 64 := h64 c (by rw [hk]; exact hc)
          have hne : c ≠ 2 ^ 64 - 1 := by
            intro hmax
            exact hnot ⟨hparse.1, hparse.2, hk, by rw [hk, hc, hmax]⟩
          show c ≤ (c + 1) % 2 ^ 64
          rw [Nat.mod_eq_of_lt (by omega)]
          omega
      · unfold StatsMap.count
        rw [stats_step_other _ _ _ hk]
    · rw [if_neg hparse]
  · rintro ⟨hlen, heth, hk, hmax⟩
    rw [maps_after_stats, if_pos ⟨hlen, heth⟩]
    unfold StatsMap.count
    rw [hk] at hmax
    rw [hk, stats_step_self _ _ (byte_lt skb 23), hmax]
    decide

/-- Witness of C14 amended, on the frame and table of the counterexample: the
count of key 6, which is not the protocol id of the UDP frame, is
`2 ^ 64 - 1` before the call and at least that after it, while the count of
key 17 is `0` after it. -/
theorem counters_monotone_below_max_witness :
    (∃ v maps1, packet_filter ⟨4096, ipv4_frame 0x45 17 (udp_datagram 0 53)⟩
        ⟨stats_map_full, policy_single 17 1⟩ = some (v, maps1) ∧
      2 ^ 64 - 1 ≤ StatsMap.count maps1.stats_map 6) ∧
    (∃ v maps1, packet_filter ⟨4096, ipv4_frame 0x45 17 (udp_datagram 0 53)⟩
        ⟨stats_map_full, policy_single 17 1⟩ = some (v, maps1) ∧
      StatsMap.count maps1.stats_map 17 = 0) :=
  ⟨(counters_monotone_below_max ⟨4096, ipv4_frame 0x45 17 (udp_datagram 0 53)⟩
      ⟨stats_map_full, policy_single 17 1⟩ 6
      (fun c hc => by
        have h0 : 2 ^ 64 - 1 = c := Option.some.inj hc
        subst h0
        decide)).elim
      fun v h => h.elim fun maps1 h1 =>
        ⟨v, maps1, h1.1, h1.2.1 (fun hex => absurd hex.2.2.1 (by decide))⟩,
   (counters_monotone_below_max ⟨4096, ipv4_frame 0x45 17 (udp_datagram 0 53)⟩
      ⟨stats_map_full, policy_single 17 1⟩ 17
      (fun c hc => by
        have h0 : 2 ^ 64 - 1 = c := Option.some.inj hc
        subst h0
        decide)).elim
      fun v h => h.elim fun maps1 h1 =>
        ⟨v, maps1, h1.1, h1.2.2 ⟨by decide, by decide, by decide, by decide⟩⟩⟩

/-! ## What the call does not depend on and does not change -/

theorem getD_with_addresses (mac frame : List Byte) (hmac : mac.length = 12)
    (i : Nat) (hi : 12 ≤ i) :
    (with_addresses mac frame).getD i 0 = frame.getD i 0 := by
  unfold with_addresses
  rw [List.getD_eq_getElem?_getD, List.getD_eq_getElem?_getD,
    List.getElem?_append_right (by omega), List.getElem?_drop, hmac]
  congr 2
  omega

theorem drop_condition_congr (skb1 skb2 : SkBuff) (pol : PolicyMap)
    (hlen : skb1.pkt.length = skb2.pkt.length)
    (hagree : ∀ i, 12 ≤ i → skb1.pkt.getD i 0 = skb2.pkt.getD i 0) :
    drop_condition skb1 pol ↔ drop_condition skb2 pol := by
  have hb : ∀ i, 12 ≤ i → skb1.byte i = skb2.byte i := fun i hi =>
    congrArg Fin.val (hagree i hi)
  have hw : ∀ i, 12 ≤ i → skb1.be16 i = skb2.be16 i := fun i hi => by
    unfold SkBuff.be16
    rw [hb i hi, hb (i + 1) (by omega)]
  unfold drop_condition
  rw [hlen, hw 12 (by omega), hagree 23 (by omega), hb 23 (by omega), hb 14 (by omega),
    hw (14 + 4 * (skb2.byte 14 % 16) + 2) (by omega)]

theorem maps_after_congr (skb1 skb2 : SkBuff) (maps : BpfMaps)
    (hlen : skb1.pkt.length = skb2.pkt.length)
    (hagree : ∀ i, 12 ≤ i → skb1.pkt.getD i 0 = skb2.pkt.getD i 0) :
    maps_after skb1 maps = maps_after skb2 maps := by
  have hb : ∀ i, 12 ≤ i → skb1.byte i = skb2.byte i := fun i hi =>
    congrArg Fin.val (hagree i hi)
  have hw : skb1.be16 12 = skb2.be16 12 := by
    unfold SkBuff.be16
    rw [hb 12 (by omega), hb 13 (by omega)]
  unfold maps_after
  rw [hlen, hw, hb 23 (by omega)]

/-- C15: two frames of the same length that agree on every byte from offset
12 onward get, with the same tables, the same verdict and the same statistics
table, and the call returns on both. -/
theorem ethernet_addresses_unused (skb1 skb2 : SkBuff) (maps : BpfMaps)
    (hlen : skb1.pkt.length = skb2.pkt.length)
    (hagree : ∀ i, 12 ≤ i → skb1.pkt.getD i 0 = skb2.pkt.getD i 0) :
    verdict skb1 maps = verdict skb2 maps ∧
    stats_after skb1 maps = stats_after skb2 maps ∧
    verdict skb1 maps ≠ none := by
  obtain ⟨v1, h1, hd1, hp1⟩ := packet_filter_result skb1 maps
  obtain ⟨v2, h2, hd2, hp2⟩ := packet_filter_result skb2 maps
  have hiff := drop_condition_congr skb1 skb2 maps.allowed_protocols hlen hagree
  have hv : v1 = v2 := by
    by_cases hd : drop_condition skb1 maps.allowed_protocols
    · rw [hd1 hd, hd2 (hiff.mp hd)]
    · rw [hp1 hd, hp2 (fun h => hd (hiff.mpr h))]
  subst hv
  have hm := maps_after_congr skb1 skb2 maps hlen hagree
  refine ⟨?_, ?_, ?_⟩
  · simp [verdict, h1, h2]
  · simp [stats_after, h1, h2, hm]
  · simp [verdict, h1]

/-- Witness of C15: the same TCP frame to port 23 with two different pairs of
Ethernet addresses. -/
theorem ethernet_addresses_unused_witness :
    (with_addresses (List.replicate 12 0xFF) (ipv4_frame 0x45 6 (tcp_segment 0 23))).getD 3 0
      ≠ (ipv4_frame 0x45 6 (tcp_segment 0 23)).getD 3 0 ∧
    verdict ⟨4096, with_addresses (List.replicate 12 0xFF)
        (ipv4_frame 0x45 6 (tcp_segment 0 23))⟩ ⟨stats_map_init, policy_single 6 1⟩
      = verdict ⟨4096, ipv4_frame 0x45 6 (tcp_segment 0 23)⟩
        ⟨stats_map_init, policy_single 6 1⟩ ∧
    stats_after ⟨4096, with_addresses (List.replicate 12 0xFF)
        (ipv4_frame 0x45 6 (tcp_segment 0 23))⟩ ⟨stats_map_init, policy_single 6 1⟩
      = stats_after ⟨4096, ipv4_frame 0x45 6 (tcp_segment 0 23)⟩
        ⟨stats_map_init, policy_single 6 1⟩ ∧
    verdict ⟨4096, with_addresses (List.replicate 12 0xFF)
        (ipv4_frame 0x45 6 (tcp_segment 0 23))⟩ ⟨stats_map_init, policy_single 6 1⟩
      ≠ none :=
  ⟨by decide,
    ethernet_addresses_unused
      ⟨4096, with_addresses (List.replicate 12 0xFF) (ipv4_frame 0x45 6 (tcp_segment 0 23))⟩
      ⟨4096, ipv4_frame 0x45 6 (tcp_segment 0 23)⟩ ⟨stats_map_init, policy_single 6 1⟩
      (by decide)
      (fun i hi => getD_with_addresses (List.replicate 12 0xFF)
        (ipv4_frame 0x45 6 (tcp_segment 0 23)) (by decide) i hi)⟩

/-- C16: for every frame and all tables the call returns, and the policy
table after it is the policy table before it, on the PASS and on the DROP
paths alike. -/
theorem policy_table_unchanged (skb : SkBuff) (maps : BpfMaps) :
    ∃ v maps1, packet_filter skb maps = some (v, maps1) ∧
      (v = TC_ACT_OK ∨ v = TC_ACT_SHOT) ∧
      maps1.allowed_protocols = maps.allowed_protocols := by
  obtain ⟨v, hv, hdrop, hpass⟩ := packet_filter_result skb maps
  refine ⟨v, _, hv, ?_, maps_after_policy skb maps⟩
  by_cases hd : drop_condition skb maps.allowed_protocols
  · exact Or.inr (hdrop hd)
  · exact Or.inl (hpass hd)

/-! ## The verdict in full -/

/-- C17: for every frame and all tables, the verdict is DROP if and only if
the length is at least 34, bytes 12..13 read big-endian are 0x0800, the policy
table has an entry for the protocol id in byte 23, and that entry is 0 or the
protocol id is 6, the length is at least `14 + 4 * (byte14 mod 16) + 20` and
the big-endian 16-bit value at `14 + 4 * (byte14 mod 16) + 2` is 23; in every
other case the verdict is PASS. -/
theorem verdict_characterisation (skb : SkBuff) (maps : BpfMaps) :
    (verdict skb maps = some TC_ACT_SHOT ↔
      (34 ≤ skb.pkt.length ∧ skb.be16 12 = 0x0800 ∧
        ∃ a : Byte, maps.allowed_protocols (skb.pkt.getD 23 0) = some a ∧
          (a.val = 0 ∨
            (skb.byte 23 = 6 ∧ 14 + 4 * (skb.byte 14 % 16) + 20 ≤ skb.pkt.length ∧
              skb.be16 (14 + 4 * (skb.byte 14 % 16) + 2) = 23)))) ∧
    (¬ (34 ≤ skb.pkt.length ∧ skb.be16 12 = 0x0800 ∧
        ∃ a : Byte, maps.allowed_protocols (skb.pkt.getD 23 0) = some a ∧
          (a.val = 0 ∨
            (skb.byte 23 = 6 ∧ 14 + 4 * (skb.byte 14 % 16) + 20 ≤ skb.pkt.length ∧
              skb.be16 (14 + 4 * (skb.byte 14 % 16) + 2) = 23))) →
      verdict skb maps = some TC_ACT_OK) := by
  obtain ⟨v, hv, hdrop, hpass⟩ := packet_filter_result skb maps
  have hver : verdict skb maps = some v := by
    simp [verdict, hv]
  rw [hver]
  constructor
  · constructor
    · intro h
      by_contra hnot
      have hok : v = TC_ACT_OK := hpass hnot
      rw [hok] at h
      exact absurd (Option.some.inj h) (by decide)
    · intro h
      rw [hdrop h]
  · intro hnot
    rw [hpass hnot]

/-! ## Header length below five words -/

theorem getD_take_append (l rest : List Byte) (n i : Nat) (hn : n ≤ l.length) (hi : i < n) :
    (l.take n ++ rest).getD i 0 = l.getD i 0 := by
  rw [List.getD_eq_getElem?_getD, List.getD_eq_getElem?_getD,
    List.getElem?_append_left (by rw [List.length_take]; omega), List.getElem?_take, if_pos hi]

theorem drop_condition_ihl_zero (skb : SkBuff) (pol : PolicyMap) (a : Byte)
    (hlen : 34 ≤ skb.pkt.length) (heth : skb.be16 12 = 0x0800)
    (hproto : skb.byte 23 = 6) (hallow : pol 6 = some a) (ha : a ≠ 0)
    (hihl : skb.byte 14 % 16 = 0) :
    drop_condition skb pol ↔ skb.be16 16 = 23 := by
  have hp : skb.pkt.getD 23 0 = 6 := getD_eq_of_byte skb 23 6 hproto
  unfold drop_condition
  rw [hihl, hp, hallow]
  constructor
  · rintro ⟨_, _, b, hb, hor⟩
    have hab : a = b := Option.some.inj hb
    subst hab
    rcases hor with h0 | ⟨_, _, hport⟩
    · exact absurd (Fin.ext h0) ha
    · exact hport
  · intro hport
    exact ⟨hlen, heth, a, rfl, Or.inr ⟨hproto, by omega, hport⟩⟩

/-- C18: for a frame of at least 34 bytes with EtherType 0x0800, protocol id
6, a non-zero policy value for 6 and IHL nibble 0, the call returns, the
counter of protocol 6 is incremented, and the verdict is DROP if and only if
bytes 16..17 read big-endian are 23, PASS otherwise; the verdict stays the
same when everything from offset 34 onward is replaced. -/
theorem ihl_zero_reads_ip_header (skb : SkBuff) (maps : BpfMaps) (a : Byte)
    (hlen : 34 ≤ skb.pkt.length) (heth : skb.be16 12 = 0x0800)
    (hproto : skb.byte 23 = 6)
    (hallow : maps.allowed_protocols 6 = some a) (ha : a ≠ 0)
    (hihl : skb.byte 14 % 16 = 0) :
    ∃ v maps1, packet_filter skb maps = some (v, maps1) ∧
      maps1.stats_map 6 =
        some (match maps.stats_map 6 with
          | some old => (old + 1) % 2 ^ 64
          | none => 1) ∧
      (v = TC_ACT_SHOT ↔ 256 * skb.byte 16 + skb.byte 17 = 23) ∧
      (256 * skb.byte 16 + skb.byte 17 ≠ 23 → v = TC_ACT_OK) ∧
      (∀ (d : Nat) (rest : List Byte),
        verdict ⟨d, skb.pkt.take 34 ++ rest⟩ maps = some v) := by
  obtain ⟨v, hv, hdrop, hpass⟩ := packet_filter_result skb maps
  have hiff := drop_condition_ihl_zero skb maps.allowed_protocols a hlen heth hproto hallow ha
    hihl
  have hbe : skb.be16 16 = 256 * skb.byte 16 + skb.byte 17 := rfl
  rw [hbe] at hiff
  refine ⟨v, _, hv, ?_, ?_, ?_, ?_⟩
  · rw [maps_after_stats, if_pos ⟨hlen, heth⟩, hproto]
    exact stats_step_self _ 6 (by decide)
  · constructor
    · intro h
      by_contra hne
      have hok : v = TC_ACT_OK := hpass (fun hd => hne (hiff.mp hd))
      rw [hok] at h
      exact absurd h (by decide)
    · intro h
      exact hdrop (hiff.mpr h)
  · intro hne
    exact hpass (fun hd => hne (hiff.mp hd))
  · intro d rest
    have hb : ∀ i, i < 34 →
        SkBuff.byte ⟨d, skb.pkt.take 34 ++ rest⟩ i = skb.byte i := fun i hi =>
      congrArg Fin.val (getD_take_append skb.pkt rest 34 i hlen hi)
    have hlen2 : 34 ≤ (SkBuff.mk d (skb.pkt.take 34 ++ rest)).pkt.length := by
      show 34 ≤ (skb.pkt.take 34 ++ rest).length
      rw [List.length_append, List.length_take]
      omega
    have heth2 : SkBuff.be16 ⟨d, skb.pkt.take 34 ++ rest⟩ 12 = 0x0800 := by
      unfold SkBuff.be16
      rw [hb 12 (by omega), hb 13 (by omega)]
      exact heth
    have hiff2 := drop_condition_ihl_zero ⟨d, skb.pkt.take 34 ++ rest⟩ maps.allowed_protocols a
      hlen2 heth2 (by rw [hb 23 (by omega)]; exact hproto) hallow ha
      (by rw [hb 14 (by omega)]; exact hihl)
    have hbe2 : SkBuff.be16 ⟨d, skb.pkt.take 34 ++ rest⟩ 16
        = 256 * skb.byte 16 + skb.byte 17 := by
      unfold SkBuff.be16
      rw [hb 16 (by omega), hb 17 (by omega)]
    rw [hbe2] at hiff2
    obtain ⟨w, hw, hdrop2, hpass2⟩ :=
      packet_filter_result ⟨d, skb.pkt.take 34 ++ rest⟩ maps
    have hwv : w = v := by
      by_cases hport : 256 * skb.byte 16 + skb.byte 17 = 23
      · rw [hdrop2 (hiff2.mpr hport), hdrop (hiff.mpr hport)]
      · rw [hpass2 (fun hd => hport (hiff2.mp hd)), hpass (fun hd => hport (hiff.mp hd))]
    simp [verdict, hw, hwv]

/-- Witness of C18: first IPv4 byte 0x40, total-length field 23, and a TCP
header after the IPv4 header whose own port field is 80: the frame is
dropped. -/
theorem ihl_zero_reads_ip_header_witness :
    SkBuff.be16 ⟨4096, List.replicate 12 0 ++ [8, 0, 0x40, 0, 0, 23] ++ List.replicate 5 0
        ++ [6] ++ List.replicate 10 0 ++ tcp_segment 0 80⟩ 36 = 80 ∧
    verdict ⟨4096, List.replicate 12 0 ++ [8, 0, 0x40, 0, 0, 23] ++ List.replicate 5 0
        ++ [6] ++ List.replicate 10 0 ++ tcp_segment 0 80⟩
      ⟨stats_map_init, policy_single 6 1⟩ = some TC_ACT_SHOT ∧
    ∃ v maps1, packet_filter ⟨4096, List.replicate 12 0 ++ [8, 0, 0x40, 0, 0, 23]
          ++ List.replicate 5 0 ++ [6] ++ List.replicate 10 0 ++ tcp_segment 0 80⟩
        ⟨stats_map_init, policy_single 6 1⟩ = some (v, maps1) ∧
      maps1.stats_map 6 = some 1 ∧ v = TC_ACT_SHOT :=
  ⟨by decide, by decide,
    (ihl_zero_reads_ip_header
      ⟨4096, List.replicate 12 0 ++ [8, 0, 0x40, 0, 0, 23] ++ List.replicate 5 0
        ++ [6] ++ List.replicate 10 0 ++ tcp_segment 0 80⟩
      ⟨stats_map_init, policy_single 6 1⟩ 1 (by decide) (by decide) (by decide) (by decide)
      (by decide) (by decide)).elim
      fun v h => h.elim fun maps1 h1 => ⟨v, maps1, h1.1, h1.2.1, h1.2.2.1.mpr (by decide)⟩⟩

/-! ## Policy values -/

theorem drop_condition_policy_set (skb : SkBuff) (pol : PolicyMap) (p v : Byte)
    (hv : v ≠ 0) :
    drop_condition skb (policy_set pol p v) ↔ drop_condition skb (policy_set pol p 1) := by
  unfold drop_condition policy_set
  by_cases hp : skb.pkt.getD 23 0 = p
  · simp only [hp, if_true]
    constructor
    · rintro ⟨hlen, heth, b, hb, hor⟩
      have hvb : v = b := Option.some.inj hb
      subst hvb
      rcases hor with h0 | h6
      · exact absurd (Fin.ext h0) hv
      · exact ⟨hlen, heth, 1, rfl, Or.inr h6⟩
    · rintro ⟨hlen, heth, b, hb, hor⟩
      have hvb : (1 : Byte) = b := Option.some.inj hb
      subst hvb
      rcases hor with h0 | h6
      · exact absurd h0 (by decide)
      · exact ⟨hlen, heth, v, rfl, Or.inr h6⟩
  · simp only [hp, if_false]

/-- C19: for every frame, statistics table, policy table, protocol id `p` and
policy value `v` other than 0, the call with `allowed_protocols[p] = v`
returns the same verdict and the same statistics table as the call with
`allowed_protocols[p] = 1`. -/
theorem nonzero_policy_value_is_allow (skb : SkBuff) (st : StatsMap) (pol : PolicyMap)
    (p v : Byte) (hv : v ≠ 0) :
    verdict skb ⟨st, policy_set pol p v⟩ = verdict skb ⟨st, policy_set pol p 1⟩ ∧
    stats_after skb ⟨st, policy_set pol p v⟩ = stats_after skb ⟨st, policy_set pol p 1⟩ ∧
    verdict skb ⟨st, policy_set pol p v⟩ ≠ none := by
  obtain ⟨v1, h1, hd1, hp1⟩ := packet_filter_result skb ⟨st, policy_set pol p v⟩
  obtain ⟨v2, h2, hd2, hp2⟩ := packet_filter_result skb ⟨st, policy_set pol p 1⟩
  have hiff := drop_condition_policy_set skb pol p v hv
  have hvv : v1 = v2 := by
    by_cases hd : drop_condition skb (policy_set pol p v)
    · rw [hd1 hd, hd2 (hiff.mp hd)]
    · rw [hp1 hd, hp2 (fun h => hd (hiff.mpr h))]
  subst hvv
  refine ⟨?_, ?_, ?_⟩
  · simp [verdict, h1, h2]
  · simp [stats_after, h1, h2, maps_after_stats]
  · simp [verdict, h1]

/-- Witness of C19: policy value 255 for TCP, port 23: dropped by the port
rule exactly as with value 1. -/
theorem nonzero_policy_value_is_allow_witness :
    verdict ⟨4096, ipv4_frame 0x45 6 (tcp_segment 0 23)⟩
        ⟨stats_map_init, policy_set policy_empty 6 255⟩
      = verdict ⟨4096, ipv4_frame 0x45 6 (tcp_segment 0 23)⟩
        ⟨stats_map_init, policy_set policy_empty 6 1⟩ ∧
    stats_after ⟨4096, ipv4_frame 0x45 6 (tcp_segment 0 23)⟩
        ⟨stats_map_init, policy_set policy_empty 6 255⟩
      = stats_after ⟨4096, ipv4_frame 0x45 6 (tcp_segment 0 23)⟩
        ⟨stats_map_init, policy_set policy_empty 6 1⟩ ∧
    verdict ⟨4096, ipv4_frame 0x45 6 (tcp_segment 0 23)⟩
        ⟨stats_map_init, policy_set policy_empty 6 255⟩ ≠ none :=
  nonzero_policy_value_is_allow ⟨4096, ipv4_frame 0x45 6 (tcp_segment 0 23)⟩
    stats_map_init policy_empty 6 255 (by decide)

end BasicFilter
